import Mathlib

/-!
FlowInsight technical-indicator and scoring engine: a shallow embedding.

This file embeds the numeric core of the FlowInsight stock-analysis service
(`src/services/technical_indicators.py`, `src/services/health_calculator.py`,
`src/services/recommendation_calculator.py`) as executable Lean definitions and
proves properties of it.

Modelling conventions:
* Python `float` values are modelled as `ℚ` (the algorithms only add, subtract,
  multiply and divide, so every quantity is rational; exact arithmetic is used
  so equalities are exact).
* Python `None` / an absent value is `Option.none`.
* Daily records (Python dicts) are structures; a field that a dict may lack is
  an `Option` field, and the `d.get(key, 0)` / `d[key] or 0` access pattern is
  `Option.getD · 0`.
* Python's stable `sorted`/`list.sort` is `List.mergeSort`.
* Python integer period parameters are `ℕ`; all call sites in the repository
  pass positive periods.
-/

namespace FlowInsight


/-- One daily price record, as consumed by `TechnicalIndicators`.
Python passes dicts; the indicator code reads `trade_date` (for sorting) and
the price fields via `_to_float(d.get(key, 0))`, which turns a missing or
`None` price into `0.0`.  We therefore store the already-coerced prices. -/
structure Frame where
  trade_date : ℕ
  close_price : ℚ := 0
  high_price : ℚ := 0
  low_price : ℚ := 0
deriving Repr, DecidableEq

/-- Source `TechnicalIndicators._ensure_ascending_order`: stable sort by trade date. -/
def ensure_ascending_order (data : List Frame) : List Frame :=
  data.mergeSort (fun a b => decide (a.trade_date ≤ b.trade_date))

/-- The EMA update used in the loop body of `calculate_ema`:
`ema = (prices[i] - ema_values[-1]) * multiplier + ema_values[-1]` with
`multiplier = 2.0 / (period + 1)`. -/
def emaStep (period : ℕ) (prev x : ℚ) : ℚ :=
  (x - prev) * (2 / ((period : ℚ) + 1)) + prev

/-- Source `TechnicalIndicators.calculate_ema`.
The Python loop starting from the SMA seed and appending
`emaStep period last x` for each later price is expressed with `List.scanl`;
the leading `period - 1` entries are the `[None] * (period - 1)` padding. -/
def calculate_ema (prices : List ℚ) (period : ℕ) : List (Option ℚ) :=
  if prices.length = 0 ∨ period ≤ 0 then []
  else if period ≤ prices.length then
    List.replicate (period - 1) none ++
      (List.scanl (emaStep period) ((prices.take period).sum / (period : ℚ))
        (prices.drop period)).map some
  else []

/-- Output record of `calculate_macd`: the input dict `**d` plus the three
MACD fields. -/
structure MacdFrame where
  base : Frame
  macd : Option ℚ
  macd_signal : Option ℚ
  macd_histogram : Option ℚ
deriving Repr, DecidableEq

/-- The `将信号线值映射回原始位置` loop of `calculate_macd`: walk `macd_line`
keeping a counter `valid_idx` of present MACD values seen so far; at a present
value look up `signal_line_raw[valid_idx - (signal_period - 1)]` when that
index is in range, else `None`. -/
def mapSignalBack (signal_period : ℕ) (signal_line_raw : List (Option ℚ)) :
    List (Option ℚ) → ℕ → List (Option ℚ)
  | [], _ => []
  | none :: rest, valid_idx =>
      none :: mapSignalBack signal_period signal_line_raw rest valid_idx
  | some _ :: rest, valid_idx =>
      (if signal_period - 1 ≤ valid_idx ∧
          valid_idx - (signal_period - 1) < signal_line_raw.length
        then (signal_line_raw[valid_idx - (signal_period - 1)]?).getD none
        else none) :: mapSignalBack signal_period signal_line_raw rest (valid_idx + 1)

/-- Source `TechnicalIndicators.calculate_macd`.
The Python `for i in range(min_len)` loop combining `fast_ema[i]` and
`slow_ema[i]` is `List.zipWith` (which also truncates at the shorter list);
`[m for m in macd_line if m is not None]` is `List.reduceOption`;
`macd_line[i] if i < len(macd_line) else None` is `(macd_line[i]?).getD none`. -/
def calculate_macd (data : List Frame)
    (fast_period slow_period signal_period : ℕ) : List MacdFrame :=
  if data = [] then []
  else
    let sorted_data := ensure_ascending_order data
    let prices := sorted_data.map (·.close_price)
    if prices.length < slow_period + signal_period then []
    else
      let fast_ema := calculate_ema prices fast_period
      let slow_ema := calculate_ema prices slow_period
      let macd_line := List.zipWith (fun f s =>
        match f, s with
        | some f, some s => some (f - s)
        | _, _ => none) fast_ema slow_ema
      let valid_macd_values := macd_line.reduceOption
      if valid_macd_values.length < signal_period then
        sorted_data.mapIdx (fun i d =>
          { base := d, macd := (macd_line[i]?).getD none,
            macd_signal := none, macd_histogram := none })
      else
        let signal_line_raw := calculate_ema valid_macd_values signal_period
        let signal_line := mapSignalBack signal_period signal_line_raw macd_line 0
        sorted_data.mapIdx (fun i d =>
          let macd_val := (macd_line[i]?).getD none
          let signal_val := (signal_line[i]?).getD none
          let histogram := match macd_val, signal_val with
            | some m, some s => some (m - s)
            | _, _ => none
          { base := d, macd := macd_val, macd_signal := signal_val,
            macd_histogram := histogram })

/-- Output record of `calculate_kdj`. -/
structure KdjFrame where
  base : Frame
  kdj_k : Option ℚ
  kdj_d : Option ℚ
  kdj_j : Option ℚ
deriving Repr, DecidableEq

/-- Python `max` over a nonempty list (call sites never pass `[]`;
the `0` default is unreachable there). -/
def pyMax : List ℚ → ℚ
  | [] => 0
  | h :: t => t.foldl max h

/-- Python `min` over a nonempty list (call sites never pass `[]`). -/
def pyMin : List ℚ → ℚ
  | [] => 0
  | h :: t => t.foldl min h

/-- The RSV loop of `calculate_kdj` (lines 243–258): for each index `i`,
`None` before `rsv_period - 1`, otherwise the stochastic position of
`closes[i]` within the `rsv_period`-day high/low window, with the zero-range
window mapped to `50.0`.  The Python slice `highs[i - rsv_period + 1 : i + 1]`
is `(highs.drop (i + 1 - rsv_period)).take rsv_period`. -/
def rsv_values (highs lows closes : List ℚ) (rsv_period : ℕ) : List (Option ℚ) :=
  (List.range closes.length).map (fun i =>
    if i < rsv_period - 1 then none
    else
      let period_highs := (highs.drop (i + 1 - rsv_period)).take rsv_period
      let period_lows := (lows.drop (i + 1 - rsv_period)).take rsv_period
      let period_high := pyMax period_highs
      let period_low := pyMin period_lows
      if period_high = period_low then some 50  -- 避免除零
      else some ((closes.getD i 0 - period_low) / (period_high - period_low) * 100))

/-- The K/D smoothing loop of `calculate_kdj`, building `k_values` and
`d_values` in step with the enumerated RSV list.  `k_values[-1] if k_values
else 50.0` is read off the accumulated list; a `None` last entry cannot occur
when this branch runs (a present RSV at `i > rsv_period - 1` is preceded by a
present K/D), so its totalisation to `50` is unreachable. -/
def kd_loop (rsv_period k_smooth d_smooth : ℕ) :
    List (Option ℚ) → ℕ → List (Option ℚ) → List (Option ℚ) →
    List (Option ℚ) × List (Option ℚ)
  | [], _, k_values, d_values => (k_values, d_values)
  | none :: rest, i, k_values, d_values =>
      kd_loop rsv_period k_smooth d_smooth rest (i + 1)
        (k_values ++ [none]) (d_values ++ [none])
  | some rsv :: rest, i, k_values, d_values =>
      let k := if i = rsv_period - 1 then rsv
        else
          let prev_k := match k_values.getLast? with
            | some (some kv) => kv
            | _ => 50
          (2 / ((k_smooth : ℚ) + 1)) * prev_k + (1 / ((k_smooth : ℚ) + 1)) * rsv
      let d := if i = rsv_period - 1 then k
        else
          let prev_d := match d_values.getLast? with
            | some (some dv) => dv
            | _ => 50
          (2 / ((d_smooth : ℚ) + 1)) * prev_d + (1 / ((d_smooth : ℚ) + 1)) * k
      kd_loop rsv_period k_smooth d_smooth rest (i + 1)
        (k_values ++ [some k]) (d_values ++ [some d])

/-- Source `TechnicalIndicators.calculate_kdj`. -/
def calculate_kdj (data : List Frame)
    (rsv_period k_smooth d_smooth : ℕ) : List KdjFrame :=
  if data = [] then []
  else
    let sorted_data := ensure_ascending_order data
    if sorted_data.length < rsv_period then []
    else
      let highs := sorted_data.map (·.high_price)
      let lows := sorted_data.map (·.low_price)
      let closes := sorted_data.map (·.close_price)
      let rsvs := rsv_values highs lows closes rsv_period
      let kd := kd_loop rsv_period k_smooth d_smooth rsvs 0 [] []
      sorted_data.mapIdx (fun i d =>
        let k_val := (kd.1[i]?).getD none
        let d_val := (kd.2[i]?).getD none
        let j_val := match k_val, d_val with
          | some kv, some dv => some (3 * kv - 2 * dv)
          | _, _ => none
        { base := d, kdj_k := k_val, kdj_d := d_val, kdj_j := j_val })

/-- Output record of `calculate_rsi`. -/
structure RsiFrame where
  base : Frame
  rsi : Option ℚ
deriving Repr, DecidableEq

/-- Source `TechnicalIndicators.calculate_rsi`.
`changes[i-1] = closes[i] - closes[i-1]` is `zipWith (· - ·) closes.tail
closes`; the per-index RSI loop over `avg_gains`/`avg_losses` (two lists of
equal length) is `zipWith`. -/
def calculate_rsi (data : List Frame) (period : ℕ) : List RsiFrame :=
  if data = [] then []
  else
    let sorted_data := ensure_ascending_order data
    if sorted_data.length < period + 1 then []
    else
      let closes := sorted_data.map (·.close_price)
      let changes := List.zipWith (fun a b => a - b) closes.tail closes
      let gains := changes.map (fun c => if c > 0 then c else 0)
      let losses := changes.map (fun c => if c < 0 then -c else 0)
      let avg_gains := calculate_ema gains period
      let avg_losses := calculate_ema losses period
      let rsi_values := List.zipWith (fun g l =>
        match g, l with
        | some g, some l =>
            some (if l = 0 then (100 : ℚ) else 100 - 100 / (1 + g / l))
        | _, _ => none) avg_gains avg_losses
      sorted_data.mapIdx (fun i d =>
        { base := d,
          rsi := if i = 0 then none else (rsi_values[i - 1]?).getD none })

/-- One row of `stock_capital_flow_history` as fetched by the health and
recommendation SQL (most recent day first).  Columns may be SQL `NULL`
(`Option.none`); the Python `float(d[col] or 0)` / `to_float(d.get(col, 0))`
access is `Option.getD · 0`. -/
structure FlowRow where
  trade_date : ℕ := 0
  main_net_inflow : Option ℚ := none
  super_large_net_inflow : Option ℚ := none
  small_net_inflow : Option ℚ := none
  close_price : Option ℚ := none
  change_percent : Option ℚ := none
  turnover_rate : Option ℚ := none
  turnover_amount : Option ℚ := none
deriving Repr, DecidableEq

/-- Source `float(value or 0)`: `None` (and `0`) become `0`. -/
def orZero (v : Option ℚ) : ℚ := v.getD 0

/-- The `score_details` dict of `calculate_health_score`. -/
structure ScoreDetails where
  inflow_score : ℤ
  trend_score : ℤ
  price_score : ℤ
  turnover_score : ℤ
  main_net_inflow_7d : ℚ
  main_net_inflow_30d : ℚ
deriving Repr, DecidableEq

/-- The dict returned by `calculate_health_score`.  `round(total_score, 2)`
on the integer sum of sub-scores is that integer, so `health_score : ℤ`. -/
structure HealthResult where
  health_score : ℤ
  trend_direction : String
  risk_level : String
  main_net_inflow_7d : Option ℚ := none
  main_net_inflow_30d : Option ℚ := none
  message : Option String := none
  score_details : Option ScoreDetails := none
deriving Repr, DecidableEq

/-- Sub-score 1 (`主力资金流入情况`, max 40) from the 7-day inflow sum. -/
def inflow_score (main_net_inflow_7d : ℚ) : ℤ :=
  if main_net_inflow_7d > 100000000 then 40
  else if main_net_inflow_7d > 50000000 then 30
  else if main_net_inflow_7d > 0 then 20
  else 0

/-- Sub-score 2 (`资金流入趋势`, max 30).  `consecutive_inflow_days` counts
the positive-inflow days among `recent_7d[:3]`; `is_accelerating` tests the
first three inflows for a strict decrease (in recency order) and positivity.
The `inflows[k]` accesses are safe because the branch requires
`len(recent_7d) ≥ 3`. -/
def trend_score (recent_7d : List FlowRow) : ℤ :=
  if 3 ≤ recent_7d.length then
    let consecutive_inflow_days :=
      (recent_7d.take 3).countP (fun d => decide (orZero d.main_net_inflow > 0))
    let inflows := (recent_7d.take 3).map (fun d => orZero d.main_net_inflow)
    let is_accelerating :=
      inflows.getD 0 0 > inflows.getD 1 0 ∧ inflows.getD 1 0 > inflows.getD 2 0 ∧
        ∀ x ∈ inflows, x > 0
    if is_accelerating then 30
    else if 3 ≤ consecutive_inflow_days then 25
    else if 2 ≤ consecutive_inflow_days then 15
    else 5
  else 10

/-- Sub-score 3 (`价格表现`, max 20) from the 7-day average change percent. -/
def price_score (recent_7d : List FlowRow) : ℤ :=
  if recent_7d ≠ [] then
    let avg_change :=
      (recent_7d.map (fun d => orZero d.change_percent)).sum / (recent_7d.length : ℚ)
    if avg_change > 3 then 20
    else if avg_change > 1 then 15
    else if avg_change > 0 then 10
    else 5
  else 10

/-- Sub-score 4 (`成交量活跃度`, max 10) from the 7-day average turnover rate. -/
def turnover_score (recent_7d : List FlowRow) : ℤ :=
  if recent_7d ≠ [] then
    let avg_turnover_rate :=
      (recent_7d.map (fun d => orZero d.turnover_rate)).sum / (recent_7d.length : ℚ)
    if avg_turnover_rate > 5 then 10
    else if avg_turnover_rate > 3 then 7
    else if avg_turnover_rate > 1 then 5
    else 2
  else 5

/-- Source `HealthCalculator.calculate_health_score`.
The storage collaborator's fetch is an input: `.ok rows` models
`db.execute_query` returning the (DESC-ordered, ≤ 30) history rows, `.error e`
models it raising.  The whole body sits in `try/except Exception`, so a fetch
error is caught, logged, and turned into the fallback dict — the result is
`Except`-valued only so that "the exception propagates" is expressible, and
the function in fact never returns `.error`. -/
def calculate_health_score (fetched : Except String (List FlowRow)) :
    Except String HealthResult :=
  match fetched with
  | .error e =>
      .ok { health_score := 0, trend_direction := "unknown", risk_level := "high",
            message := some ("计算失败: " ++ e) }
  | .ok history_data =>
      if history_data = [] then
        .ok { health_score := 0, trend_direction := "unknown", risk_level := "high",
              message := some "暂无历史数据" }
      else
        let recent_7d := if 7 ≤ history_data.length then history_data.take 7
          else history_data
        let recent_30d := history_data
        let main_net_inflow_7d := (recent_7d.map (fun d => orZero d.main_net_inflow)).sum
        let main_net_inflow_30d := (recent_30d.map (fun d => orZero d.main_net_inflow)).sum
        let s1 := inflow_score main_net_inflow_7d
        let s2 := trend_score recent_7d
        let s3 := price_score recent_7d
        let s4 := turnover_score recent_7d
        let total_score := s1 + s2 + s3 + s4
        let trend_direction := if main_net_inflow_7d > 50000000 then "inflow"
          else if main_net_inflow_7d < -50000000 then "outflow"
          else "stable"
        let risk_level := if 80 ≤ total_score then "low"
          else if 60 ≤ total_score then "medium"
          else "high"
        .ok { health_score := total_score,
              trend_direction := trend_direction,
              risk_level := risk_level,
              main_net_inflow_7d := some main_net_inflow_7d,
              main_net_inflow_30d := some main_net_inflow_30d,
              score_details := some
                { inflow_score := s1, trend_score := s2, price_score := s3,
                  turnover_score := s4,
                  main_net_inflow_7d := main_net_inflow_7d,
                  main_net_inflow_30d := main_net_inflow_30d } }

/-- One row of the `stock_list` join fetched by `calculate_recommendations`. -/
structure StockInfo where
  secid : String
  stock_code : String
  stock_name : String
  market_code : ℕ
deriving Repr, DecidableEq

/-- One recommendation entry as appended to `result`. -/
structure Recommendation where
  stock_code : String
  stock_name : String
  secid : String
  market_code : ℕ
  current_price : ℚ
  change_percent : ℚ
  total_main_inflow_10d : ℚ
  total_small_inflow_10d : ℚ
  volatility : ℚ
  max_change : ℚ
  min_change : ℚ
  recommend_reasons : List String
deriving Repr, DecidableEq

/-- The per-stock body of the `for stock in stocks` loop of
`RecommendationCalculator.calculate_recommendations`: `none` when the stock
is skipped (`continue` or filter miss), `some entry` when appended.
`sqrt` abstracts Python's `variance ** 0.5` (an irrational real operation;
every property proved below holds for any choice of it).  `history` is the
stock's fetched rows, most recent first. -/
def candidateEntry (sqrt : ℚ → ℚ) (min_trade_days : ℕ)
    (stock : StockInfo) (history : List FlowRow) : Option Recommendation :=
  if history.length < min_trade_days then none
  else
    let total_main_inflow := (history.map (fun d => orZero d.main_net_inflow)).sum
    let total_small_inflow := (history.map (fun d => orZero d.small_net_inflow)).sum
    let changes := history.map (fun d => orZero d.change_percent)
    let max_change := if changes ≠ [] then pyMax changes else 0
    let min_change := if changes ≠ [] then pyMin changes else 0
    let avg_change := if changes ≠ [] then changes.sum / (changes.length : ℚ) else 0
    let volatility := if 1 < changes.length then
        sqrt ((changes.map (fun x => (x - avg_change) ^ 2)).sum / (changes.length : ℚ))
      else 0
    let latest := history.head?
    let current_price := match latest with
      | some d => orZero d.close_price
      | none => 0
    if 50000000 ≤ total_main_inflow ∧ total_main_inflow < 500000000 ∧
        -8 ≤ max_change ∧ max_change ≤ 8 ∧ -8 ≤ min_change ∧ min_change ≤ 8 ∧
        total_small_inflow < 0 ∧ 1 < volatility ∧
        0 < current_price ∧ current_price < 100 then
      some { stock_code := stock.stock_code, stock_name := stock.stock_name,
             secid := stock.secid, market_code := stock.market_code,
             current_price := current_price,
             change_percent := match latest with
               | some d => orZero d.change_percent
               | none => 0,
             total_main_inflow_10d := total_main_inflow,
             total_small_inflow_10d := total_small_inflow,
             volatility := volatility, max_change := max_change,
             min_change := min_change,
             recommend_reasons :=
               (if 100000000 < total_main_inflow then ["大资金持续建仓"] else []) ++
               (if 2 < volatility then ["震荡洗盘"] else []) ++
               (if total_small_inflow < -10000000 then ["散户逐步退出"] else []) ++
               (if 200000000 < total_main_inflow then ["主力资金明显流入"] else []) }
    else none

/-- Source `RecommendationCalculator.calculate_recommendations`, given the fetched
data: one `(stock, history)` pair per row of the eligible-stock query.
`min_trade_days` is `max(6, int(days * 0.6))` at the call site; the sequential
loop with `continue`/append is `filterMap`, the final
`result.sort(key=..., reverse=True)` (a stable descending sort by
`total_main_inflow_10d`) is `mergeSort`, and `result[:limit]` is `take`. -/
def calculate_recommendations (sqrt : ℚ → ℚ)
    (stocks : List (StockInfo × List FlowRow))
    (min_trade_days limit : ℕ) : List Recommendation :=
  let result := stocks.filterMap (fun p => candidateEntry sqrt min_trade_days p.1 p.2)
  (result.mergeSort
    (fun a b => decide (b.total_main_inflow_10d ≤ a.total_main_inflow_10d))).take limit

/-- Four ascending days with close prices 1, 2, 3, 4. -/
def macdDemo : List Frame := [⟨0, 1, 0, 0⟩, ⟨1, 2, 0, 0⟩, ⟨2, 3, 0, 0⟩, ⟨3, 4, 0, 0⟩]

/-- Three ascending days with close prices 1, 2, 3. -/
def rsiDemo : List Frame := [⟨0, 1, 0, 0⟩, ⟨1, 2, 0, 0⟩, ⟨2, 3, 0, 0⟩]

/-- Two days, each with `high == low`, but at different levels (1 then 2). -/
def kdjDemo : List Frame := [⟨0, 1, 1, 1⟩, ⟨1, 2, 2, 2⟩]

/-- Seven history rows (most recent first): the three most recent days have
`main_net_inflow = -1`, the four older days `+1`. -/
def trendDemo : List FlowRow :=
  [{ trade_date := 6, main_net_inflow := some (-1) },
   { trade_date := 5, main_net_inflow := some (-1) },
   { trade_date := 4, main_net_inflow := some (-1) },
   { trade_date := 3, main_net_inflow := some 1 },
   { trade_date := 2, main_net_inflow := some 1 },
   { trade_date := 1, main_net_inflow := some 1 },
   { trade_date := 0, main_net_inflow := some 1 }]

/-- A 3-row history with accelerating inflows (3 > 2 > 1, all positive). -/
def accelDemo : List FlowRow :=
  [{ trade_date := 2, main_net_inflow := some 3 },
   { trade_date := 1, main_net_inflow := some 2 },
   { trade_date := 0, main_net_inflow := some 1 }]

/-- Length of `calculate_ema` output in the sufficient-data case. -/
theorem calculate_ema_length {prices : List ℚ} {period : ℕ}
    (hp : 0 < period) (hlen : period ≤ prices.length) :
    (calculate_ema prices period).length = prices.length := by
  unfold calculate_ema
  have h1 : ¬ (prices.length = 0 ∨ period ≤ 0) := by omega
  rw [if_neg h1, if_pos hlen]
  simp [List.length_scanl]
  omega

/-- Entries before index `period - 1` are the `None` padding. -/
theorem calculate_ema_absent {prices : List ℚ} {period : ℕ}
    (hp : 0 < period) (hlen : period ≤ prices.length)
    {i : ℕ} (hi : i < period - 1) :
    (calculate_ema prices period)[i]? = some none := by
  unfold calculate_ema
  have h1 : ¬ (prices.length = 0 ∨ period ≤ 0) := by omega
  rw [if_neg h1, if_pos hlen]
  rw [List.getElem?_append_left (by simpa using hi)]
  simp [List.getElem?_replicate, hi]

/-- The seed entry at index `period - 1` is the simple average of the first
`period` prices. -/
theorem calculate_ema_seed {prices : List ℚ} {period : ℕ}
    (hp : 0 < period) (hlen : period ≤ prices.length) :
    (calculate_ema prices period)[period - 1]? =
      some (some ((prices.take period).sum / (period : ℚ))) := by
  unfold calculate_ema
  have h1 : ¬ (prices.length = 0 ∨ period ≤ 0) := by omega
  rw [if_neg h1, if_pos hlen]
  rw [List.getElem?_append_right (by simp)]
  simp

/-- Entries from index `period` onward follow the EMA recurrence, reading the
previous output entry. -/
theorem calculate_ema_recurrence {prices : List ℚ} {period : ℕ}
    (hp : 0 < period) {i : ℕ} (hip : period ≤ i) (hi : i < prices.length) :
    ∃ prev x, (calculate_ema prices period)[i - 1]? = some (some prev) ∧
      prices[i]? = some x ∧
      (calculate_ema prices period)[i]? = some (some (emaStep period prev x)) := by
  have hlen : period ≤ prices.length := le_of_lt (lt_of_le_of_lt hip hi)
  have h1 : ¬ (prices.length = 0 ∨ period ≤ 0) := by omega
  set b : ℚ := (prices.take period).sum / (period : ℚ) with hb
  set l : List ℚ := prices.drop period with hl
  have hscan : calculate_ema prices period =
      List.replicate (period - 1) none ++ (List.scanl (emaStep period) b l).map some := by
    unfold calculate_ema
    rw [if_neg h1, if_pos hlen]
  have hllen : l.length = prices.length - period := by simp [hl]
  -- the compact index of `i` in the scanl output
  set j : ℕ := i - period with hj
  have hjl : j < l.length := by omega
  have hj1 : j + 1 < (List.scanl (emaStep period) b l).length := by
    rw [List.length_scanl]; omega
  have hjlt : j < (List.scanl (emaStep period) b l).length := by
    rw [List.length_scanl]; omega
  refine ⟨(List.scanl (emaStep period) b l)[j], l[j], ?_, ?_, ?_⟩
  · rw [hscan, List.getElem?_append_right (by simp; omega)]
    have : i - 1 - (List.replicate (period - 1) (none : Option ℚ)).length = j := by
      simp; omega
    rw [this, List.getElem?_map, List.getElem?_eq_getElem hjlt]
    rfl
  · have := List.getElem?_drop prices period j
    rw [← hl] at this
    have hpj : period + j = i := by omega
    rw [hpj] at this
    rw [← this, List.getElem?_eq_getElem hjl]
  · rw [hscan, List.getElem?_append_right (by simp; omega)]
    have : i - (List.replicate (period - 1) (none : Option ℚ)).length = j + 1 := by
      simp; omega
    rw [this, List.getElem?_map, List.getElem?_eq_getElem hj1]
    rw [List.getElem_succ_scanl hj1]
    rfl

/-- Entries from index `period - 1` onward are present (some value). -/
theorem calculate_ema_present {prices : List ℚ} {period : ℕ}
    (hp : 0 < period) (hlen : period ≤ prices.length)
    {i : ℕ} (h1 : period - 1 ≤ i) (h2 : i < prices.length) :
    ∃ v : ℚ, (calculate_ema prices period)[i]? = some (some v) := by
  have hone : ¬ (prices.length = 0 ∨ period ≤ 0) := by omega
  have hscan : calculate_ema prices period =
      List.replicate (period - 1) none ++
        (List.scanl (emaStep period) ((prices.take period).sum / (period : ℚ))
          (prices.drop period)).map some := by
    unfold calculate_ema
    rw [if_neg hone, if_pos hlen]
  have hjlt : i - (period - 1) <
      (List.scanl (emaStep period) ((prices.take period).sum / (period : ℚ))
        (prices.drop period)).length := by
    rw [List.length_scanl]; simp; omega
  refine ⟨(List.scanl (emaStep period) ((prices.take period).sum / (period : ℚ))
    (prices.drop period))[i - (period - 1)], ?_⟩
  rw [hscan, List.getElem?_append_right (by simpa using h1)]
  have : i - (List.replicate (period - 1) (none : Option ℚ)).length = i - (period - 1) := by
    simp
  rw [this, List.getElem?_map, List.getElem?_eq_getElem hjlt]
  rfl

/-- Already-sorted input is returned unchanged by `_ensure_ascending_order`. -/
theorem ensure_ascending_order_of_sorted {l : List Frame}
    (h : l.Pairwise (fun a b => a.trade_date ≤ b.trade_date)) :
    ensure_ascending_order l = l := by
  apply List.mergeSort_of_sorted
  simpa using h

theorem ensure_ascending_order_length (l : List Frame) :
    (ensure_ascending_order l).length = l.length :=
  List.length_mergeSort l

/-- Folding `max` over a list whose elements all equal the accumulator value. -/
theorem foldl_max_const {c : ℚ} : ∀ {l : List ℚ}, (∀ x ∈ l, x = c) →
    l.foldl max c = c
  | [], _ => rfl
  | x :: t, h => by
    have hx : x = c := h x (by simp)
    have : ∀ y ∈ t, y = c := fun y hy => h y (by simp [hy])
    simp [hx, foldl_max_const this]

/-- Source `pyMax` of a nonempty all-`c` list is `c`. -/
theorem pyMax_const {c : ℚ} {l : List ℚ} (hne : l ≠ []) (h : ∀ x ∈ l, x = c) :
    pyMax l = c := by
  cases l with
  | nil => exact absurd rfl hne
  | cons x t =>
    have hx : x = c := h x (by simp)
    have ht : ∀ y ∈ t, y = c := fun y hy => h y (by simp [hy])
    simp only [pyMax, hx]
    exact foldl_max_const ht

/-- Folding `min` over a list whose elements all equal the accumulator value. -/
theorem foldl_min_const {c : ℚ} : ∀ {l : List ℚ}, (∀ x ∈ l, x = c) →
    l.foldl min c = c
  | [], _ => rfl
  | x :: t, h => by
    have hx : x = c := h x (by simp)
    have : ∀ y ∈ t, y = c := fun y hy => h y (by simp [hy])
    simp [hx, foldl_min_const this]

/-- Source `pyMin` of a nonempty all-`c` list is `c`. -/
theorem pyMin_const {c : ℚ} {l : List ℚ} (hne : l ≠ []) (h : ∀ x ∈ l, x = c) :
    pyMin l = c := by
  cases l with
  | nil => exact absurd rfl hne
  | cons x t =>
    have hx : x = c := h x (by simp)
    have ht : ∀ y ∈ t, y = c := fun y hy => h y (by simp [hy])
    simp only [pyMin, hx]
    exact foldl_min_const ht

/-- The inflow sub-score lies in `[0, 40]`. -/
theorem inflow_score_range (q : ℚ) : 0 ≤ inflow_score q ∧ inflow_score q ≤ 40 := by
  unfold inflow_score
  split_ifs <;> norm_num

/-- The trend sub-score lies in `[5, 30]`. -/
theorem trend_score_range (l : List FlowRow) : 5 ≤ trend_score l ∧ trend_score l ≤ 30 := by
  unfold trend_score
  dsimp only
  split_ifs <;> norm_num

/-- The price sub-score lies in `[5, 20]`. -/
theorem price_score_range (l : List FlowRow) : 5 ≤ price_score l ∧ price_score l ≤ 20 := by
  unfold price_score
  dsimp only
  split_ifs <;> norm_num

/-- The turnover sub-score lies in `[2, 10]`. -/
theorem turnover_score_range (l : List FlowRow) :
    2 ≤ turnover_score l ∧ turnover_score l ≤ 10 := by
  unfold turnover_score
  dsimp only
  split_ifs <;> norm_num

/-- Bounds of the four-way sum of sub-scores. -/
theorem total_score_bounds (q : ℚ) (l : List FlowRow) :
    0 ≤ inflow_score q + trend_score l + price_score l + turnover_score l ∧
    inflow_score q + trend_score l + price_score l + turnover_score l ≤ 100 ∧
    12 ≤ inflow_score q + trend_score l + price_score l + turnover_score l := by
  have h1 := inflow_score_range q
  have h2 := trend_score_range l
  have h3 := price_score_range l
  have h4 := turnover_score_range l
  omega

/-- Every entry produced by the loop body satisfies the inclusion rule. -/
theorem candidateEntry_spec {sqrt : ℚ → ℚ} {min_trade_days : ℕ}
    {stock : StockInfo} {history : List FlowRow} {r : Recommendation}
    (heq : candidateEntry sqrt min_trade_days stock history = some r) :
    50000000 ≤ r.total_main_inflow_10d ∧ r.total_main_inflow_10d < 500000000 ∧
    -8 ≤ r.max_change ∧ r.max_change ≤ 8 ∧ -8 ≤ r.min_change ∧ r.min_change ≤ 8 ∧
    r.total_small_inflow_10d < 0 ∧ 1 < r.volatility ∧
    0 < r.current_price ∧ r.current_price < 100 ∧
    r.total_main_inflow_10d ≠ 600000000 := by
  unfold candidateEntry at heq
  dsimp only at heq
  rw [Option.ite_none_left_eq_some, Option.ite_none_right_eq_some] at heq
  obtain ⟨-, hc, heq⟩ := heq
  cases Option.some.inj heq
  obtain ⟨h1, h2, h3, h4, h5, h6, h7, h8, h9, h10⟩ := hc
  have hneq : (List.map (fun d => orZero d.main_net_inflow) history).sum ≠ 600000000 := by
    intro h
    rw [h] at h2
    norm_num at h2
  exact ⟨h1, h2, h3, h4, h5, h6, h7, h8, h9, h10, hneq⟩

/-- Claim C7 — `calculate_ema` with `period > 0` and `len(values) ≥ period`:
the output has the same length as the input; entries at indices
`0 … period - 2` are absent; the entry at index `period - 1` is the simple
average of the first `period` inputs; and every entry at index `i ≥ period`
equals `prev_ema + (values[i] - prev_ema) * (2 / (period + 1))` where
`prev_ema` is the output entry at index `i - 1`. -/
theorem C7_ema_contract (prices : List ℚ) (period : ℕ)
    (hp : 0 < period) (hlen : period ≤ prices.length) :
    (calculate_ema prices period).length = prices.length ∧
    (∀ i, i < period - 1 → (calculate_ema prices period)[i]? = some none) ∧
    (calculate_ema prices period)[period - 1]? =
      some (some ((prices.take period).sum / (period : ℚ))) ∧
    (∀ i, period ≤ i → i < prices.length →
      ∃ prev x, (calculate_ema prices period)[i - 1]? = some (some prev) ∧
        prices[i]? = some x ∧
        (calculate_ema prices period)[i]? =
          some (some (prev + (x - prev) * (2 / ((period : ℚ) + 1))))) := by
  refine ⟨calculate_ema_length hp hlen, fun i hi => calculate_ema_absent hp hlen hi,
    calculate_ema_seed hp hlen, fun i hip hi => ?_⟩
  obtain ⟨prev, x, h1, h2, h3⟩ := calculate_ema_recurrence hp hip hi
  refine ⟨prev, x, h1, h2, ?_⟩
  rw [h3]
  unfold emaStep
  ring_nf

/-- Witness for C7 at `prices = [1, 2, 3]`, `period = 2`. -/
theorem C7_ema_contract_witness :
    (calculate_ema [1, 2, 3] 2).length = 3 ∧
    (∀ i, i < 2 - 1 → (calculate_ema [1, 2, 3] 2)[i]? = some none) ∧
    (calculate_ema [1, 2, 3] 2)[2 - 1]? =
      some (some ((([1, 2, 3] : List ℚ).take 2).sum / (2 : ℚ))) ∧
    (∀ i, 2 ≤ i → i < 3 →
      ∃ prev x, (calculate_ema [1, 2, 3] 2)[i - 1]? = some (some prev) ∧
        ([1, 2, 3] : List ℚ)[i]? = some x ∧
        (calculate_ema [1, 2, 3] 2)[i]? =
          some (some (prev + (x - prev) * (2 / ((2 : ℚ) + 1))))) := by
  have h := C7_ema_contract [1, 2, 3] 2 (by norm_num) (by norm_num)
  simpa using h

/-- Claim C1 (counterexample) — the claim says an insufficient non-empty input
comes back with the indicator values absent but the input otherwise intact:
`calculate_ema` on one value with `period = 2` would have to return `[none]`,
and `calculate_macd` on three frames with `slow = 2`, `signal = 2` would have
to return those three frames.  The code instead returns the empty list in both
cases. -/
theorem C1_counterexample :
    calculate_ema [(1 : ℚ)] 2 = [] ∧ calculate_ema [(1 : ℚ)] 2 ≠ [none] ∧
    calculate_macd (macdDemo.take 3) 1 2 2 = [] ∧
    (calculate_macd (macdDemo.take 3) 1 2 2).length ≠ (macdDemo.take 3).length := by
  have hs : ensure_ascending_order (macdDemo.take 3) = macdDemo.take 3 :=
    ensure_ascending_order_of_sorted (by decide)
  have hmacd : calculate_macd (macdDemo.take 3) 1 2 2 = [] := by
    unfold calculate_macd
    rw [hs]
    decide
  refine ⟨by decide, by decide, hmacd, ?_⟩
  rw [hmacd]
  decide

/-- Claim C1 (amended) — for every indicator operation called with a non-empty
input shorter than its algorithm's minimum (`calculate_ema`: fewer than
`period` values; `calculate_macd`: fewer than `slow_period + signal_period`
frames; `calculate_kdj`: fewer than `rsv_period` frames; `calculate_rsi`:
fewer than `period + 1` frames), the operation logs a warning and returns the
empty list (no indicator output at all), and no exception is propagated to the
caller. -/
theorem C1_insufficient_data_empty :
    (∀ (prices : List ℚ) (period : ℕ), prices ≠ [] → 0 < period →
      prices.length < period → calculate_ema prices period = []) ∧
    (∀ (data : List Frame) (f s g : ℕ), data ≠ [] →
      data.length < s + g → calculate_macd data f s g = []) ∧
    (∀ (data : List Frame) (p ks ds : ℕ), data ≠ [] →
      data.length < p → calculate_kdj data p ks ds = []) ∧
    (∀ (data : List Frame) (p : ℕ), data ≠ [] →
      data.length < p + 1 → calculate_rsi data p = []) := by
  refine ⟨?_, ?_, ?_, ?_⟩
  · intro prices period hne hp hlen
    have h0 : prices.length ≠ 0 := by simpa using hne
    unfold calculate_ema
    rw [if_neg (by omega), if_neg (by omega)]
  · intro data f s g hne hlen
    have hl : (List.map (fun x => x.close_price) (ensure_ascending_order data)).length
        < s + g := by
      rw [List.length_map, ensure_ascending_order_length]; exact hlen
    simp only [calculate_macd, if_neg hne]
    rw [if_pos hl]
  · intro data p ks ds hne hlen
    have hl : (ensure_ascending_order data).length < p := by
      rw [ensure_ascending_order_length]; exact hlen
    simp only [calculate_kdj, if_neg hne]
    rw [if_pos hl]
  · intro data p hne hlen
    have hl : (ensure_ascending_order data).length < p + 1 := by
      rw [ensure_ascending_order_length]; exact hlen
    simp only [calculate_rsi, if_neg hne]
    rw [if_pos hl]

/-- Witness for C1 (amended): each of the four operations on a concrete
non-empty, too-short input returns `[]`. -/
theorem C1_insufficient_data_empty_witness :
    calculate_ema [(1 : ℚ)] 3 = [] ∧
    calculate_macd (macdDemo.take 2) 1 2 2 = [] ∧
    calculate_kdj (kdjDemo.take 1) 2 3 3 = [] ∧
    calculate_rsi (rsiDemo.take 2) 2 = [] :=
  ⟨C1_insufficient_data_empty.1 [(1 : ℚ)] 3 (by decide) (by decide) (by decide),
   C1_insufficient_data_empty.2.1 (macdDemo.take 2) 1 2 2 (by decide) (by decide),
   C1_insufficient_data_empty.2.2.1 (kdjDemo.take 1) 2 3 3 (by decide) (by decide),
   C1_insufficient_data_empty.2.2.2 (rsiDemo.take 2) 2 (by decide) (by decide)⟩

/-- Claim C2 (code evaluation at the failing input) — frames with close prices
`1, 2, 3, 4` (already ascending), `fast = 1`, `slow = 2`, `signal = 2`,
so `len(frames) = slow + signal = 4`.  MACD is present from index
`slow - 1 = 1` on (second conjunct), so by the claim the signal line should be
present exactly from index `(slow - 1) + (signal - 1) = 2` on, with value
`1/2` at index 2 (the seed EMA of the compacted MACD values `[1/2, 1/2]`).
The code instead leaves index 2 absent and places that value at index 3: the
`valid_idx - (signal_period - 1)` lookup shifts into `signal_line_raw`, which
already carries the `signal_period - 1` warm-up padding of `calculate_ema`,
so the warm-up is applied twice. -/
theorem C2_macd_signal_shifted :
    (calculate_macd macdDemo 1 2 2).map (fun f => f.macd_signal) =
      [none, none, none, some (1 / 2)] ∧
    (calculate_macd macdDemo 1 2 2).map (fun f => f.macd) =
      [none, some (1 / 2), some (1 / 2), some (1 / 2)] ∧
    (calculate_macd macdDemo 1 2 2).map (fun f => f.macd_histogram) =
      [none, none, none, some 0] := by
  have hs : ensure_ascending_order macdDemo = macdDemo :=
    ensure_ascending_order_of_sorted (by decide)
  have h : calculate_macd macdDemo 1 2 2 =
      [⟨⟨0, 1, 0, 0⟩, none, none, none⟩,
       ⟨⟨1, 2, 0, 0⟩, some (1 / 2), none, none⟩,
       ⟨⟨2, 3, 0, 0⟩, some (1 / 2), none, none⟩,
       ⟨⟨3, 4, 0, 0⟩, some (1 / 2), some (1 / 2), some 0⟩] := by
    unfold calculate_macd
    rw [hs]
    simp [macdDemo, calculate_ema, emaStep, mapSignalBack,
      List.mapIdx, List.mapIdx.go]
    norm_num [mapSignalBack]
  rw [h]
  norm_num

/-- Claim C5 (counterexample) — with `period = 2` and three frames of close
prices `1, 2, 3` (so `len(frames) = period + 1`), the claim says exactly the
first `period - 1 = 1` frames have `rsi` absent, i.e. index 1 is present.
The code leaves indices 0 and 1 absent: the first `period` frames lack RSI
(index 0 by construction, and indices `1 … period - 1` because the smoothed
gain/loss EMAs start at change-index `period - 1`, which is frame `period`). -/
theorem C5_counterexample :
    (calculate_rsi rsiDemo 2).map (fun f => f.rsi) = [none, none, some 100] ∧
    ((calculate_rsi rsiDemo 2).map (fun f => f.rsi))[1]? = some none := by
  have hs : ensure_ascending_order rsiDemo = rsiDemo :=
    ensure_ascending_order_of_sorted (by decide)
  have h : (calculate_rsi rsiDemo 2).map (fun f => f.rsi) = [none, none, some 100] := by
    unfold calculate_rsi
    rw [hs]
    simp [rsiDemo, calculate_ema, emaStep, List.mapIdx, List.mapIdx.go]
    norm_num
  exact ⟨h, by rw [h]; rfl⟩

/-- Claim C5 (amended) — for `calculate_rsi` on date-sorted frames with
`len(frames) ≥ period + 1` and `period > 0`, the output has one frame per
input frame and exactly the first `period` output frames have `rsi` absent;
every later frame has `rsi` present.  In particular the very first frame
always has `rsi` absent. -/
theorem C5_rsi_warmup (data : List Frame) (period : ℕ) (hp : 0 < period)
    (hsorted : data.Pairwise (fun a b => a.trade_date ≤ b.trade_date))
    (hlen : period + 1 ≤ data.length) :
    (calculate_rsi data period).length = data.length ∧
    ∀ i, i < data.length →
      ∃ fr, (calculate_rsi data period)[i]? = some fr ∧ (fr.rsi = none ↔ i < period) := by
  have hs : ensure_ascending_order data = data := ensure_ascending_order_of_sorted hsorted
  have hne : data ≠ [] := by
    rintro rfl; simp at hlen
  have hlt : ¬ (data.length < period + 1) := by omega
  have hform : calculate_rsi data period = data.mapIdx (fun i d =>
      { base := d,
        rsi := if i = 0 then none else
          ((List.zipWith (fun g l =>
              match g, l with
              | some g, some l =>
                  some (if l = 0 then (100 : ℚ) else 100 - 100 / (1 + g / l))
              | _, _ => none)
            (calculate_ema ((List.zipWith (fun a b => a - b)
              (data.map (fun x => x.close_price)).tail
              (data.map (fun x => x.close_price))).map
                (fun c => if c > 0 then c else 0)) period)
            (calculate_ema ((List.zipWith (fun a b => a - b)
              (data.map (fun x => x.close_price)).tail
              (data.map (fun x => x.close_price))).map
                (fun c => if c < 0 then -c else 0)) period))[i - 1]?).getD none }) := by
    simp only [calculate_rsi, hs]
    rw [if_neg hne, if_neg hlt]
  set closes : List ℚ := data.map (fun x => x.close_price) with hcloses
  set changes : List ℚ := List.zipWith (fun a b => a - b) closes.tail closes with hchanges
  have hchlen : changes.length = data.length - 1 := by
    rw [hchanges, List.length_zipWith, List.length_tail]
    simp [hcloses]
  set gains : List ℚ := changes.map (fun c => if c > 0 then c else 0) with hgains
  set losses : List ℚ := changes.map (fun c => if c < 0 then -c else 0) with hlosses
  have hglen : gains.length = data.length - 1 := by rw [hgains, List.length_map]; exact hchlen
  have hllen : losses.length = data.length - 1 := by rw [hlosses, List.length_map]; exact hchlen
  have hpg : period ≤ gains.length := by omega
  have hpl : period ≤ losses.length := by omega
  refine ⟨by rw [hform, List.length_mapIdx], fun i hi => ?_⟩
  have hdata : data[i]? = some (data.get ⟨i, hi⟩) := by
    rw [List.getElem?_eq_getElem hi]; rfl
  rw [hform, List.getElem?_mapIdx, hdata]
  refine ⟨_, rfl, ?_⟩
  rcases Nat.eq_zero_or_pos i with hi0 | hi1
  · subst hi0
    simp [hp]
  · have h0 : ¬ (i = 0) := by omega
    simp only [h0, if_false]
    rcases Nat.lt_or_ge i period with hlt2 | hge
    · -- warm-up region: both EMAs are `some none` at index `i - 1`
      have hg := calculate_ema_absent hp hpg (i := i - 1) (by omega)
      have hl := calculate_ema_absent hp hpl (i := i - 1) (by omega)
      rw [List.getElem?_zipWith, hg, hl]
      simpa using hlt2
    · -- present region: both EMAs carry a value at index `i - 1`
      obtain ⟨g, hg⟩ := calculate_ema_present hp hpg (i := i - 1) (by omega) (by omega)
      obtain ⟨l, hl⟩ := calculate_ema_present hp hpl (i := i - 1) (by omega) (by omega)
      rw [List.getElem?_zipWith, hg, hl]
      simp
      omega

/-- Witness for C5 (amended) at four frames with close prices `1, 2, 3, 4`
and `period = 2`: indices 0 and 1 absent, indices 2 and 3 present. -/
theorem C5_rsi_warmup_witness :
    (calculate_rsi macdDemo 2).length = macdDemo.length ∧
    ∀ i, i < macdDemo.length →
      ∃ fr, (calculate_rsi macdDemo 2)[i]? = some fr ∧ (fr.rsi = none ↔ i < 2) :=
  C5_rsi_warmup macdDemo 2 (by decide) (by decide) (by decide)

/-- Claim C9 (counterexample) — `kdjDemo` has `high == low` on every entry
(1 on day 0, 2 on day 1), yet with `rsv_period = 2` the RSV at the first
valid index is `(2 - 1) / (2 - 1) * 100 = 100`, not `50`: the window's
maximum high (2) differs from its minimum low (1), so the zero-range
convention does not fire.  The first K value equals that RSV, so the
`calculate_kdj` output shows it directly. -/
theorem C9_counterexample :
    (∀ fr ∈ kdjDemo, fr.high_price = fr.low_price) ∧
    rsv_values [1, 2] [1, 2] [1, 2] 2 = [none, some 100] ∧
    (calculate_kdj kdjDemo 2 3 3).map (fun f => f.kdj_k) = [none, some 100] := by
  have hs : ensure_ascending_order kdjDemo = kdjDemo :=
    ensure_ascending_order_of_sorted (by decide)
  refine ⟨by decide, ?_, ?_⟩
  · simp [rsv_values, pyMax, pyMin, List.range_succ]
    norm_num
  · unfold calculate_kdj
    rw [hs]
    simp [kdjDemo, rsv_values, pyMax, pyMin, kd_loop, List.range_succ,
      List.mapIdx, List.mapIdx.go]
    norm_num [kd_loop]

/-- Claim C9 (amended) — in the RSV computation of `calculate_kdj` (on the
sorted frames' high/low/close series, `rsv_period > 0`), every index
`i ≥ rsv_period - 1` in range whose `rsv_period`-day window has its maximum
high equal to its minimum low yields RSV exactly `50`; in particular a series
in which every entry's high and low equal one common constant `c` yields
RSV = 50 at every valid index. -/
theorem C9_kdj_flat_window :
    (∀ (highs lows closes : List ℚ) (p i : ℕ), 0 < p → p - 1 ≤ i →
      i < closes.length →
      pyMax ((highs.drop (i + 1 - p)).take p) =
        pyMin ((lows.drop (i + 1 - p)).take p) →
      (rsv_values highs lows closes p)[i]? = some (some 50)) ∧
    (∀ (data : List Frame) (c : ℚ) (p i : ℕ), 0 < p → p - 1 ≤ i →
      i < data.length →
      (∀ fr ∈ data, fr.high_price = c ∧ fr.low_price = c) →
      (rsv_values (data.map (fun x => x.high_price))
        (data.map (fun x => x.low_price))
        (data.map (fun x => x.close_price)) p)[i]? = some (some 50)) := by
  have main : ∀ (highs lows closes : List ℚ) (p i : ℕ), 0 < p → p - 1 ≤ i →
      i < closes.length →
      pyMax ((highs.drop (i + 1 - p)).take p) =
        pyMin ((lows.drop (i + 1 - p)).take p) →
      (rsv_values highs lows closes p)[i]? = some (some 50) := by
    intro highs lows closes p i hp hpi hi hflat
    unfold rsv_values
    simp only [List.getElem?_map, List.getElem?_range hi, Option.map_some']
    rw [if_neg (by omega), if_pos hflat]
  refine ⟨main, ?_⟩
  intro data c p i hp hpi hi hconst
  apply main _ _ _ _ _ hp hpi (by simpa using hi)
  have hhi : i + 1 - p < (data.map (fun x => x.high_price)).length := by
    simp; omega
  have hlo : i + 1 - p < (data.map (fun x => x.low_price)).length := by
    simp; omega
  have hne1 : ((data.map (fun x => x.high_price)).drop (i + 1 - p)).take p ≠ [] := by
    simp only [ne_eq, List.take_eq_nil_iff, List.drop_eq_nil_iff]
    push_neg
    constructor <;> omega
  have hne2 : ((data.map (fun x => x.low_price)).drop (i + 1 - p)).take p ≠ [] := by
    simp only [ne_eq, List.take_eq_nil_iff, List.drop_eq_nil_iff]
    push_neg
    constructor <;> omega
  rw [pyMax_const hne1, pyMin_const hne2]
  · intro x hx
    have : x ∈ data.map (fun fr => fr.low_price) :=
      List.mem_of_mem_drop (List.mem_of_mem_take hx)
    obtain ⟨fr, hfr, rfl⟩ := List.mem_map.mp this
    exact (hconst fr hfr).2
  · intro x hx
    have : x ∈ data.map (fun fr => fr.high_price) :=
      List.mem_of_mem_drop (List.mem_of_mem_take hx)
    obtain ⟨fr, hfr, rfl⟩ := List.mem_map.mp this
    exact (hconst fr hfr).1

/-- Witness for C9 (amended): a three-day flat series at level 7 with
`rsv_period = 2` has RSV = 50 at index 2 (both parts applied). -/
theorem C9_kdj_flat_window_witness :
    (rsv_values [7, 7, 7] [7, 7, 7] [7, 7, 7] 2)[2]? = some (some 50) ∧
    (rsv_values
      (([⟨0, 5, 7, 7⟩, ⟨1, 6, 7, 7⟩, ⟨2, 5, 7, 7⟩] : List Frame).map
        (fun x => x.high_price))
      (([⟨0, 5, 7, 7⟩, ⟨1, 6, 7, 7⟩, ⟨2, 5, 7, 7⟩] : List Frame).map
        (fun x => x.low_price))
      (([⟨0, 5, 7, 7⟩, ⟨1, 6, 7, 7⟩, ⟨2, 5, 7, 7⟩] : List Frame).map
        (fun x => x.close_price)) 2)[2]? = some (some 50) :=
  ⟨C9_kdj_flat_window.1 [7, 7, 7] [7, 7, 7] [7, 7, 7] 2 2 (by decide) (by decide)
      (by decide) (by norm_num [pyMax, pyMin]),
   C9_kdj_flat_window.2 [⟨0, 5, 7, 7⟩, ⟨1, 6, 7, 7⟩, ⟨2, 5, 7, 7⟩] 7 2 2
      (by decide) (by decide) (by decide) (by decide)⟩

/-- Claim C3 (counterexample) — on `trendDemo`, 4 of the 7 most recent days
have positive inflow (so the claim's "≥ 3 of the 7 days" rule dictates a
trend sub-score of 25; the accelerating rule does not apply since the three
most recent inflows are all `-1`), but the code scores 5: it counts positive
days among the 3 most recent only, finding none. -/
theorem C3_counterexample :
    (∃ r d, calculate_health_score (.ok trendDemo) = .ok r ∧
      r.score_details = some d ∧ d.trend_score = 5) ∧
    3 ≤ (trendDemo.take 7).countP (fun d => decide (orZero d.main_net_inflow > 0)) ∧
    ¬ (((trendDemo.take 3).map (fun d => orZero d.main_net_inflow)).getD 0 0 >
          ((trendDemo.take 3).map (fun d => orZero d.main_net_inflow)).getD 1 0 ∧
        ((trendDemo.take 3).map (fun d => orZero d.main_net_inflow)).getD 1 0 >
          ((trendDemo.take 3).map (fun d => orZero d.main_net_inflow)).getD 2 0 ∧
        ∀ d ∈ trendDemo.take 3, orZero d.main_net_inflow > 0) := by
  refine ⟨?_, ?_, ?_⟩
  · have hne : trendDemo ≠ [] := by simp [trendDemo]
    simp only [calculate_health_score, if_neg hne]
    refine ⟨_, _, rfl, rfl, ?_⟩
    norm_num [trendDemo, trend_score, orZero]
  · norm_num [trendDemo, orZero]
  · norm_num [trendDemo, orZero]

/-- Claim C3 (amended) — with at least 3 fetched rows the trend sub-score is 30
when the 3 most recent inflows are strictly decreasing in recency order and
all positive; otherwise 25 when all 3 of the **3 most recent** days had
positive inflow; otherwise 15 when at least 2 of those **3** days did;
otherwise 5.  With fewer than 3 rows it is 10.  (The code never looks past
the 3 most recent days for this sub-score.) -/
theorem C3_trend_rule : ∀ history : List FlowRow, history ≠ [] →
    ∃ r d, calculate_health_score (.ok history) = .ok r ∧
      r.score_details = some d ∧
      d.trend_score =
        (if 3 ≤ history.length then
          (if ((history.take 3).map (fun d => orZero d.main_net_inflow)).getD 0 0 >
                ((history.take 3).map (fun d => orZero d.main_net_inflow)).getD 1 0 ∧
              ((history.take 3).map (fun d => orZero d.main_net_inflow)).getD 1 0 >
                ((history.take 3).map (fun d => orZero d.main_net_inflow)).getD 2 0 ∧
              (∀ d ∈ history.take 3, orZero d.main_net_inflow > 0)
            then 30
            else if 3 ≤ (history.take 3).countP
                (fun d => decide (orZero d.main_net_inflow > 0)) then 25
            else if 2 ≤ (history.take 3).countP
                (fun d => decide (orZero d.main_net_inflow > 0)) then 15
            else 5)
         else 10) := by
  intro history hne
  simp only [calculate_health_score, if_neg hne]
  refine ⟨_, _, rfl, rfl, ?_⟩
  unfold trend_score
  by_cases h7 : 7 ≤ history.length
  · have htake : (history.take 7).take 3 = history.take 3 := by
      rw [List.take_take]
      norm_num
    have hlen : (3 ≤ (history.take 7).length) = (3 ≤ history.length) := by
      simp [List.length_take]
    simp only [if_pos h7, htake, hlen, List.forall_mem_map]
  · simp only [if_neg h7, List.forall_mem_map]

/-- Witness for C3 (amended) on `accelDemo`. -/
theorem C3_trend_rule_witness :
    ∃ r d, calculate_health_score (.ok accelDemo) = .ok r ∧
      r.score_details = some d ∧
      d.trend_score =
        (if 3 ≤ accelDemo.length then
          (if ((accelDemo.take 3).map (fun d => orZero d.main_net_inflow)).getD 0 0 >
                ((accelDemo.take 3).map (fun d => orZero d.main_net_inflow)).getD 1 0 ∧
              ((accelDemo.take 3).map (fun d => orZero d.main_net_inflow)).getD 1 0 >
                ((accelDemo.take 3).map (fun d => orZero d.main_net_inflow)).getD 2 0 ∧
              (∀ d ∈ accelDemo.take 3, orZero d.main_net_inflow > 0)
            then 30
            else if 3 ≤ (accelDemo.take 3).countP
                (fun d => decide (orZero d.main_net_inflow > 0)) then 25
            else if 2 ≤ (accelDemo.take 3).countP
                (fun d => decide (orZero d.main_net_inflow > 0)) then 15
            else 5)
         else 10) :=
  C3_trend_rule accelDemo (by simp [accelDemo])

/-- Claim C4 (counterexample) — a storage failure during the fetch is *not*
propagated: on `.error "db down"` the function does not return that error
(it catches the exception and returns a fallback record). -/
theorem C4_counterexample :
    calculate_health_score (Except.error "db down") ≠ Except.error "db down" := by
  simp [calculate_health_score]

/-- Claim C4 (amended) — an exception from the storage collaborator during the
history fetch is caught by the calculator's blanket `try/except`, logged, and
converted into a fallback result with `health_score = 0`,
`trend_direction = "unknown"`, `risk_level = "high"` and a failure message;
it is not propagated to the caller, and no retry happens (the fetch is
attempted exactly once). -/
theorem C4_storage_failure_caught : ∀ e : String,
    calculate_health_score (.error e) =
      .ok { health_score := 0, trend_direction := "unknown", risk_level := "high",
            message := some ("计算失败: " ++ e) } :=
  fun _ => rfl

/-- Claim C6 — every `calculate_health_score` call whose fetch returns at least
one row (and which therefore completes without an exception) yields a
`health_score` equal to the exact sum of the four sub-scores, with
`0 ≤ health_score ≤ 100`. -/
theorem C6_health_sum_bounds : ∀ history : List FlowRow, history ≠ [] →
    ∃ r d, calculate_health_score (.ok history) = .ok r ∧
      r.score_details = some d ∧
      r.health_score = d.inflow_score + d.trend_score + d.price_score + d.turnover_score ∧
      0 ≤ r.health_score ∧ r.health_score ≤ 100 := by
  intro history hne
  simp only [calculate_health_score, if_neg hne]
  refine ⟨_, _, rfl, rfl, rfl, ?_, ?_⟩
  · exact (total_score_bounds _ _).1
  · exact (total_score_bounds _ _).2.1

/-- Witness for C6 at a single all-`NULL` history row. -/
theorem C6_health_sum_bounds_witness :
    ∃ r d, calculate_health_score (.ok [{ }]) = .ok r ∧
      r.score_details = some d ∧
      r.health_score = d.inflow_score + d.trend_score + d.price_score + d.turnover_score ∧
      0 ≤ r.health_score ∧ r.health_score ≤ 100 :=
  C6_health_sum_bounds [{ }] (by simp)

/-- Claim C10 — with at least one fetched row and no exception, the returned
`health_score` is at least 12: the trend sub-score is never below 5, the
price sub-score never below 5 and the turnover sub-score never below 2 (and
the inflow sub-score never below 0), so a `health_score` of 0 can only come
from the empty-history or caught-failure fallbacks. -/
theorem C10_health_min : ∀ history : List FlowRow, history ≠ [] →
    ∃ r, calculate_health_score (.ok history) = .ok r ∧ 12 ≤ r.health_score ∧
      ∀ d, r.score_details = some d →
        5 ≤ d.trend_score ∧ 5 ≤ d.price_score ∧ 2 ≤ d.turnover_score := by
  intro history hne
  simp only [calculate_health_score, if_neg hne]
  refine ⟨_, rfl, (total_score_bounds _ _).2.2, ?_⟩
  intro d hd
  cases Option.some.inj hd
  exact ⟨(trend_score_range _).1, (price_score_range _).1, (turnover_score_range _).1⟩

/-- Witness for C10 at a single all-`NULL` history row. -/
theorem C10_health_min_witness :
    ∃ r, calculate_health_score (.ok [{ }]) = .ok r ∧ 12 ≤ r.health_score ∧
      ∀ d, r.score_details = some d →
        5 ≤ d.trend_score ∧ 5 ≤ d.price_score ∧ 2 ≤ d.turnover_score :=
  C10_health_min [{ }] (by simp)

/-- Claim C8 — every entry returned by `calculate_recommendations` satisfies
the full inclusion rule over its own window aggregates
(`5e7 ≤ totalMainInflow < 5e8`, `-8 ≤ maxChange ≤ 8`, `-8 ≤ minChange ≤ 8`,
`totalSmallInflow < 0`, `volatility > 1`, `0 < latestClosePrice < 100`, so a
candidate with `totalMainInflow = 6e8` never appears); the returned list is
sorted descending by `totalMainInflow` and has at most `limit` entries.
Proved for every choice of the square-root routine. -/
theorem C8_recommendation_contract (sqrt : ℚ → ℚ)
    (stocks : List (StockInfo × List FlowRow)) (min_trade_days limit : ℕ) :
    (∀ r ∈ calculate_recommendations sqrt stocks min_trade_days limit,
      50000000 ≤ r.total_main_inflow_10d ∧ r.total_main_inflow_10d < 500000000 ∧
      -8 ≤ r.max_change ∧ r.max_change ≤ 8 ∧ -8 ≤ r.min_change ∧ r.min_change ≤ 8 ∧
      r.total_small_inflow_10d < 0 ∧ 1 < r.volatility ∧
      0 < r.current_price ∧ r.current_price < 100 ∧
      r.total_main_inflow_10d ≠ 600000000) ∧
    (calculate_recommendations sqrt stocks min_trade_days limit).Pairwise
      (fun a b => b.total_main_inflow_10d ≤ a.total_main_inflow_10d) ∧
    (calculate_recommendations sqrt stocks min_trade_days limit).length ≤ limit := by
  refine ⟨?_, ?_, ?_⟩
  · intro r hr
    have hr2 : r ∈ (stocks.filterMap
        (fun p => candidateEntry sqrt min_trade_days p.1 p.2)).mergeSort
          (fun a b => decide (b.total_main_inflow_10d ≤ a.total_main_inflow_10d)) :=
      List.mem_of_mem_take hr
    rw [List.mem_mergeSort] at hr2
    obtain ⟨p, _, heq⟩ := List.mem_filterMap.mp hr2
    exact candidateEntry_spec heq
  · have hsorted := @List.sorted_mergeSort Recommendation
      (fun a b : Recommendation =>
        decide (b.total_main_inflow_10d ≤ a.total_main_inflow_10d))
      (fun a b c hab hbc => by
        simp only [decide_eq_true_eq] at *
        exact le_trans hbc hab)
      (fun a b => by
        simp only [Bool.or_eq_true, decide_eq_true_eq]
        exact le_total _ _)
      (stocks.filterMap (fun p => candidateEntry sqrt min_trade_days p.1 p.2))
    have htake := List.Pairwise.sublist (List.take_sublist limit _) hsorted
    exact htake.imp (by simp)
  · exact List.length_take_le _ _

/-- Witness for C8: instantiated at a concrete square root, stock list and
limit. -/
theorem C8_recommendation_contract_witness :
    (calculate_recommendations (fun _ => 0) [] 6 10).length ≤ 10 :=
  (C8_recommendation_contract (fun _ => 0) [] 6 10).2.2

end FlowInsight
